import Mathlib

/-!
Shallow embedding of the resilient request executor and long-running
operation poller of the zerops-mcp repository
(internal/api/retry.go and internal/api/client.go).

Conventions of the embedding:
* `time.Duration` values (nanoseconds) and `float64` computations are
  carried in `ℚ` (every float64 value is rational; rounding on these
  small exact values is a no-op for the constants the code uses).
* Error values are their message strings, because the code classifies
  errors purely by substring search on `err.Error()`.
* The network dependency of the executor is a function
  `dep : ℕ → Except String String` giving the outcome of the i-th
  physical attempt (`doRequest` in the source).
* Cancellation: the only way the caller's context interacts with the
  retry loop is through the `select` during a backoff wait
  (retry.go lines 61-66).  `cancelAt = some k` means the context is
  done during the wait that follows attempt `k`; `none` means the
  context never fires during a wait.
-/

namespace ZeropsApi

/-- Substring search on lists of characters, the model of Go
`strings.Contains(s, pat)` (true when `pat` occurs in `s`). -/
def listContainsSub (pat : List Char) : List Char → Bool
  | [] => pat.isEmpty
  | c :: rest => pat.isPrefixOf (c :: rest) || listContainsSub pat rest

/-- Model of Go `strings.Contains(s, pat)`. -/
def strContains (s pat : String) : Bool :=
  listContainsSub pat.toList s.toList

/-- RetryConfig from retry.go: MaxRetries, BaseDelay, MaxDelay,
Multiplier, JitterFactor.  Durations are in nanoseconds. -/
structure RetryConfig where
  MaxRetries : ℕ
  BaseDelay : ℚ
  MaxDelay : ℚ
  Multiplier : ℚ
  JitterFactor : ℚ
deriving DecidableEq

/-- DefaultRetryConfig from retry.go: 3 retries, 100ms base delay,
5s max delay, multiplier 2.0, jitter factor 0.1. -/
def DefaultRetryConfig : RetryConfig :=
  { MaxRetries := 3
    BaseDelay := 100000000
    MaxDelay := 5000000000
    Multiplier := 2
    JitterFactor := 0.1 }

/-- The list of network error substrings of isRetryableError
(retry.go lines 104-111). -/
def networkErrors : List String :=
  ["connection refused", "connection reset", "i/o timeout",
   "temporary failure", "no such host", "network is unreachable"]

/-- The list of retryable HTTP status substrings of isRetryableError
(retry.go lines 119-124). -/
def retryableStatuses : List String :=
  ["429", "502", "503", "504"]

/-- isRetryableError from retry.go: substring search of the error text
for the network error patterns and the retryable status codes.  The
`err == nil` guard of the source is handled by the caller in this
embedding (the retry loop only classifies errors that occurred). -/
def isRetryableError (errStr : String) : Bool :=
  networkErrors.any (fun pattern => strContains errStr pattern) ||
  retryableStatuses.any (fun status => strContains errStr status)

/-- calculateBackoff from retry.go, on exact rationals.  `u` stands for
the jitter draw `rand.Float64()*2 - 1`, a value in [-1, 1]. -/
def calculateBackoff (attempt : ℕ) (config : RetryConfig) (u : ℚ) : ℚ :=
  let backoff := config.BaseDelay * config.Multiplier ^ attempt
  let backoff := if backoff > config.MaxDelay then config.MaxDelay else backoff
  let jitter := backoff * config.JitterFactor * u
  backoff + jitter

/-- The attempt loop of doRequestWithRetry (retry.go lines 41-76).
`remaining` is `config.MaxRetries - attempt`, so the Go guard
`attempt == config.MaxRetries` is `remaining = 0`.  The result pairs
the Go return value `([]byte, error)` (as `Except`) with the number of
physical `doRequest` calls made, the observable the spec counts.
The backoff delay influences only real time, which the embedding
abstracts into `cancelAt` (whether the context fires during a wait). -/
def retryLoop (dep : ℕ → Except String String) (cancelAt : Option ℕ)
    (ctxErr : String) (attempt : ℕ) : ℕ → Except String String × ℕ
  | 0 =>
    match dep attempt with
    | .ok payload => (.ok payload, 1)
    | .error e => (.error e, 1)
  | remaining + 1 =>
    match dep attempt with
    | .ok payload => (.ok payload, 1)
    | .error e =>
      if !isRetryableError e then (.error e, 1)
      else if cancelAt == some attempt then (.error ctxErr, 1)
      else
        let rest := retryLoop dep cancelAt ctxErr (attempt + 1) remaining
        (rest.1, rest.2 + 1)

/-- doRequestWithRetry from retry.go: substitute DefaultRetryConfig
when the installed config has MaxRetries == 0 (lines 34-37), then run
the attempt loop from attempt 0. -/
def doRequestWithRetry (dep : ℕ → Except String String) (cancelAt : Option ℕ)
    (ctxErr : String) (config : RetryConfig) : Except String String × ℕ :=
  let config := if config.MaxRetries == 0 then DefaultRetryConfig else config
  retryLoop dep cancelAt ctxErr 0 config.MaxRetries

/-- Process from the API types: the fields WaitForProcess consults.
The source struct carries further fields (actionName, serviceStackId,
projectId, clientId, timestamps, users) that the poller never reads;
they are omitted from the embedding. -/
structure Process where
  ID : String
  Status : String
deriving DecidableEq

/-- The success arm of the status switch in WaitForProcess
(client.go: case "SUCCESS", "FINISHED"). -/
def isSuccessStatus (s : String) : Bool :=
  s == "SUCCESS" || s == "FINISHED"

/-- The failure arm of the status switch in WaitForProcess
(client.go: case "FAILED", "ERROR", "CANCELLED"). -/
def isFailureStatus (s : String) : Bool :=
  s == "FAILED" || s == "ERROR" || s == "CANCELLED"

/-- The ctx.Done branch of the poll loop (client.go lines 625-631):
one final status fetch with context.Background(); if it yields a
process, return it together with a timeout error naming its status;
otherwise return the bare timeout error wrapping ctx.Err(). -/
def deadlineReturn (processID ctxErrMsg : String) (finalFetch : Option Process) :
    Option Process × Option String :=
  match finalFetch with
  | some p =>
    (some p, some ("timeout waiting for process " ++ processID ++
      " (last status: " ++ p.Status ++ ")"))
  | none =>
    (none, some ("timeout waiting for process " ++ processID ++ ": " ++ ctxErrMsg))

/-- The for/select loop of WaitForProcess (client.go lines 623-652).
`getProc i` is the outcome of the i-th status fetch inside the loop,
`finalFetch` the outcome of the one fetch made with a fresh context
after deadline expiry (its error is discarded by the source:
`finalProcess, _ := c.GetProcess(...)`, and a nil process stands for a
failed fetch).  `deadlineIn` says how many poll intervals still elapse
before the caller's deadline fires: with `deadlineIn = 0` the
ctx.Done branch wins the select now.  `currentInterval` evolves as in
the source: multiplied by `multiplier` each pending round, capped at
`maxInterval`. -/
def waitLoop (processID ctxErrMsg : String) (getProc : ℕ → Except String Process)
    (finalFetch : Option Process) (maxInterval multiplier : ℚ) :
    ℕ → ℚ → ℕ → Option Process × Option String
  | 0, _, _ => deadlineReturn processID ctxErrMsg finalFetch
  | deadlineIn + 1, currentInterval, i =>
    match getProc i with
    | .error e => (none, some ("failed to get process status: " ++ e))
    | .ok p =>
      if isSuccessStatus p.Status then (some p, none)
      else if isFailureStatus p.Status then
        (some p, some ("process " ++ processID ++ " failed with status: " ++ p.Status))
      else
        let next := currentInterval * multiplier
        let next := if next > maxInterval then maxInterval else next
        waitLoop processID ctxErrMsg getProc finalFetch maxInterval multiplier
          deadlineIn next (i + 1)

/-- WaitForProcess from client.go lines 601-652: an immediate first
status fetch (whose error falls through into the loop), then the
for/select poll loop with minInterval 500ms, maxInterval 5s,
multiplier 1.5.  The result models the Go pair `(*Process, error)`
with errors as their message strings. -/
def WaitForProcess (processID ctxErrMsg : String)
    (firstFetch : Except String Process) (getProc : ℕ → Except String Process)
    (finalFetch : Option Process) (deadlineIn : ℕ) :
    Option Process × Option String :=
  let minInterval : ℚ := 500000000
  let maxInterval : ℚ := 5000000000
  let multiplier : ℚ := 1.5
  let loop := fun _ : Unit =>
    waitLoop processID ctxErrMsg getProc finalFetch maxInterval multiplier
      deadlineIn minInterval 0
  match firstFetch with
  | .ok p =>
    if isSuccessStatus p.Status then (some p, none)
    else if isFailureStatus p.Status then
      (some p, some ("process " ++ processID ++ " failed with status: " ++ p.Status))
    else loop ()
  | .error _ => loop ()

/-- The error envelope the API returns on failure responses,
ErrorResponse.Error in the source (code, message). -/
structure ErrorEnvelope where
  code : String
  message : String

/-- The error string doRequest builds for a response with status >= 400
(client.go lines 124-132): if the body unmarshals to an envelope with a
non-empty code, format status, code and message; otherwise format
status and the raw body text. -/
def doRequestError (status : ℕ) (envelope : Option ErrorEnvelope)
    (body : String) : String :=
  match envelope with
  | some er =>
    if er.code ≠ "" then
      toString status ++ ": " ++ er.code ++ " - " ++ er.message
    else
      toString status ++ ": " ++ body
  | none => toString status ++ ": " ++ body

/-- An outbound HTTP request as the redirect logic sees it: its URL and
its Authorization header. -/
structure HttpRequest where
  url : String
  authorization : String
deriving DecidableEq

/-- What the server answers a given request: a redirect to a location,
or a final response body. -/
inductive ServerResp where
  | redirect (location : String)
  | final (body : String)

/-- The CheckRedirect hook installed by NewClient (client.go lines
54-68): given the candidate redirected request `req` and the chain
`via` of requests already made, copy the Authorization header of the
first request of the chain onto `req`, then refuse once 10 requests
have been made. -/
def checkRedirect (req : HttpRequest) (via : List HttpRequest) :
    Except String HttpRequest :=
  let req :=
    match via with
    | [] => req
    | first :: _ => { req with authorization := first.authorization }
  if via.length ≥ 10 then Except.error "stopped after 10 redirects"
  else Except.ok req

/-- The redirect-following loop of net/http's Client.Do under the hook
above: send the request; on a redirect response build the candidate
next request (the transport strips the sensitive Authorization header,
hence the empty header before the hook runs) and consult
`checkRedirect` with the chain of requests made so far.  Returns the
final request actually answered together with the response body, so
the headers the last hop carried are observable. -/
def followRedirects (server : HttpRequest → ServerResp) (req : HttpRequest)
    (via : List HttpRequest) : Except String (HttpRequest × String) :=
  match server req with
  | .final body => .ok (req, body)
  | .redirect loc =>
    let candidate : HttpRequest := { url := loc, authorization := "" }
    match h : checkRedirect candidate (via ++ [req]) with
    | .error e => .error e
    | .ok nextReq => followRedirects server nextReq (via ++ [req])
termination_by 10 - via.length
decreasing_by
  simp only [checkRedirect] at h
  split at h
  · exact absurd h (by simp)
  · rename_i hlen
    simp only [List.length_append, List.length_cons, List.length_nil,
      ge_iff_le, not_le] at hlen ⊢
    omega

/-- One transport-level send as doRequest performs it: the chain starts
at the original request, with an empty `via`. -/
def httpDo (server : HttpRequest → ServerResp) (req : HttpRequest) :
    Except String (HttpRequest × String) :=
  followRedirects server req []

/-- A server that redirects three times (a -> b -> c -> d) and then
answers with a payload: the 3-redirect scenario of the spec. -/
def chainServer3 : HttpRequest → ServerResp := fun req =>
  if req.url = "a" then .redirect "b"
  else if req.url = "b" then .redirect "c"
  else if req.url = "c" then .redirect "d"
  else .final "payload"

/-- A server whose chain needs 11 redirects
(a -> b -> ... -> l) before the final answer: the over-cap scenario of
the spec. -/
def chainServer11 : HttpRequest → ServerResp := fun req =>
  if req.url = "a" then .redirect "b"
  else if req.url = "b" then .redirect "c"
  else if req.url = "c" then .redirect "d"
  else if req.url = "d" then .redirect "e"
  else if req.url = "e" then .redirect "f"
  else if req.url = "f" then .redirect "g"
  else if req.url = "g" then .redirect "h"
  else if req.url = "h" then .redirect "i"
  else if req.url = "i" then .redirect "j"
  else if req.url = "j" then .redirect "k"
  else if req.url = "k" then .redirect "l"
  else .final "done"

/-! Helper lemmas. -/

/-- A prefix occurs as a substring. -/
theorem listContainsSub_of_isPrefixOf {pat s : List Char}
    (h : pat.isPrefixOf s = true) : listContainsSub pat s = true := by
  cases s with
  | nil =>
    cases pat with
    | nil => rfl
    | cons c cs => simp [List.isPrefixOf] at h
  | cons c rest => simp [listContainsSub, h]

/-- Substring occurrence is stable under extending the searched list on
the right. -/
theorem listContainsSub_append_right {pat s : List Char} (t : List Char)
    (h : listContainsSub pat s = true) : listContainsSub pat (s ++ t) = true := by
  induction s with
  | nil =>
    simp [listContainsSub] at h
    subst h
    cases t with
    | nil => rfl
    | cons c r => simp [listContainsSub, List.isPrefixOf]
  | cons c rest ih =>
    simp only [listContainsSub, Bool.or_eq_true] at h
    rcases h with h | h
    · have hpre : pat.isPrefixOf (c :: rest ++ t) = true :=
        List.isPrefixOf_iff_prefix.mpr
          ((List.isPrefixOf_iff_prefix.mp h).trans (List.prefix_append _ _))
      simp only [List.cons_append, listContainsSub, Bool.or_eq_true]
      exact Or.inl hpre
    · simp only [List.cons_append, listContainsSub, Bool.or_eq_true]
      exact Or.inr (ih h)

/-- String version of the right-extension property. -/
theorem strContains_append_right {s pat : String} (t : String)
    (h : strContains s pat = true) : strContains (s ++ t) pat = true := by
  unfold strContains at h ⊢
  rw [show (s ++ t).toList = s.toList ++ t.toList from
    congrArg id (String.data_append s t)]
  exact listContainsSub_append_right _ h

/-- An error whose text contains one of the retryable status substrings
classifies as retryable. -/
theorem isRetryableError_of_status {s p : String} (hp : p ∈ retryableStatuses)
    (h : strContains s p = true) : isRetryableError s = true := by
  unfold isRetryableError
  refine Bool.or_eq_true _ _ |>.mpr (Or.inr ?_)
  exact List.any_eq_true.mpr ⟨p, hp, h⟩

/-- An error whose text contains one of the network-failure substrings
classifies as retryable. -/
theorem isRetryableError_of_network {s p : String} (hp : p ∈ networkErrors)
    (h : strContains s p = true) : isRetryableError s = true := by
  unfold isRetryableError
  refine Bool.or_eq_true _ _ |>.mpr (Or.inl ?_)
  exact List.any_eq_true.mpr ⟨p, hp, h⟩

/-- An error whose text contains none of the substrings classifies as
not retryable. -/
theorem isRetryableError_eq_false {s : String}
    (hn : ∀ p, p ∈ networkErrors → strContains s p = false)
    (hs : ∀ p, p ∈ retryableStatuses → strContains s p = false) :
    isRetryableError s = false := by
  unfold isRetryableError
  rw [Bool.or_eq_false_iff]
  constructor
  · exact List.any_eq_false.mpr (fun p hp => by simp [hn p hp])
  · exact List.any_eq_false.mpr (fun p hp => by simp [hs p hp])

/-- Against a dependency that always fails retryably, with no
cancellation, the attempt loop uses its whole budget and reports the
error of the last attempt. -/
theorem retryLoop_allfail (dep : ℕ → Except String String) (e : ℕ → String)
    (ctxErr : String) (hdep : ∀ i, dep i = Except.error (e i))
    (hre : ∀ i, isRetryableError (e i) = true) :
    ∀ (remaining attempt : ℕ),
      retryLoop dep none ctxErr attempt remaining =
        (Except.error (e (attempt + remaining)), remaining + 1) := by
  intro remaining
  induction remaining with
  | zero => intro attempt; simp [retryLoop, hdep attempt]
  | succ r ih =>
    intro attempt
    simp only [retryLoop, hdep attempt, hre attempt, Bool.not_true,
      Bool.false_eq_true, if_false]
    rw [if_neg (by simp), ih (attempt + 1)]
    have harith : attempt + 1 + r = attempt + (r + 1) := by omega
    simp [harith]

/-- The attempt loop never makes more than `remaining + 1` calls. -/
theorem retryLoop_count_le (dep : ℕ → Except String String)
    (cancelAt : Option ℕ) (ctxErr : String) :
    ∀ (remaining attempt : ℕ),
      (retryLoop dep cancelAt ctxErr attempt remaining).2 ≤ remaining + 1 := by
  intro remaining
  induction remaining with
  | zero =>
    intro a
    cases h : dep a <;> simp [retryLoop, h]
  | succ r ih =>
    intro a
    cases h : dep a with
    | ok p => simp [retryLoop, h]
    | error e =>
      simp only [retryLoop, h]
      split
      · simp
      · split
        · simp
        · simp only []
          have := ih (a + 1)
          omega

/-- If the context fires during the backoff wait that follows attempt
`k` (reachable because every attempt up to `k` fails retryably and the
budget is large enough), the loop returns the context error having
made exactly `k + 1 - attempt` further calls. -/
theorem retryLoop_cancel (dep : ℕ → Except String String) (e : ℕ → String)
    (ctxErr : String) (k : ℕ)
    (hfail : ∀ i, i ≤ k → dep i = Except.error (e i) ∧ isRetryableError (e i) = true) :
    ∀ (remaining attempt : ℕ), attempt ≤ k → k < attempt + remaining →
      retryLoop dep (some k) ctxErr attempt remaining =
        (Except.error ctxErr, k + 1 - attempt) := by
  intro remaining
  induction remaining with
  | zero => intro a ha hlt; omega
  | succ r ih =>
    intro a ha hlt
    obtain ⟨hd, hre⟩ := hfail a ha
    by_cases hak : a = k
    · subst hak
      simp [retryLoop, hd, hre]
    · have halt : a < k := lt_of_le_of_ne ha hak
      simp only [retryLoop, hd, hre, Bool.not_true, Bool.false_eq_true, if_false]
      rw [if_neg (by simp [Ne.symm hak]), ih (a + 1) (by omega) (by omega)]
      exact Prod.ext rfl (by omega)

/-- Whenever the attempt loop fails without a cancellation schedule,
the error it returns is the one produced by the last attempt it made. -/
theorem retryLoop_last_error (dep : ℕ → Except String String) (ctxErr : String) :
    ∀ (remaining attempt : ℕ) (err : String) (n : ℕ),
      retryLoop dep none ctxErr attempt remaining = (Except.error err, n) →
      1 ≤ n ∧ dep (attempt + n - 1) = Except.error err := by
  intro remaining
  induction remaining with
  | zero =>
    intro a err n h
    cases hd : dep a with
    | ok p => simp [retryLoop, hd] at h
    | error e =>
      simp only [retryLoop, hd, Prod.mk.injEq, Except.error.injEq] at h
      obtain ⟨he, hn⟩ := h
      subst he; subst hn
      simpa using hd
  | succ r ih =>
    intro a err n h
    cases hd : dep a with
    | ok p => simp [retryLoop, hd] at h
    | error e =>
      by_cases hre : isRetryableError e = true
      · simp only [retryLoop, hd, hre, Bool.not_true, Bool.false_eq_true,
          if_false] at h
        rw [if_neg (by simp)] at h
        rw [Prod.mk.injEq] at h
        have hrec : retryLoop dep none ctxErr (a + 1) r =
            (Except.error err, (retryLoop dep none ctxErr (a + 1) r).2) := by
          rw [← h.1]
        obtain ⟨h1, hdep⟩ := ih (a + 1) err _ hrec
        refine ⟨by omega, ?_⟩
        have harith : a + n - 1 = a + 1 + (retryLoop dep none ctxErr (a + 1) r).2 - 1 := by
          omega
        rw [harith]; exact hdep
      · simp only [retryLoop, hd, hre, Bool.not_eq_true', Bool.not_false,
          if_true, Prod.mk.injEq, Except.error.injEq] at h
        obtain ⟨he, hn⟩ := h
        subst he; subst hn
        simpa using hd

/-- If every status fetch before the deadline is pending-like, the
poll loop ends in the ctx.Done branch. -/
theorem waitLoop_deadline (pid cem : String) (getProc : ℕ → Except String Process)
    (final : Option Process) (maxI mult : ℚ) :
    ∀ (d i : ℕ) (cur : ℚ),
      (∀ j, j < d → ∃ q, getProc (i + j) = Except.ok q ∧
        isSuccessStatus q.Status = false ∧ isFailureStatus q.Status = false) →
      waitLoop pid cem getProc final maxI mult d cur i =
        deadlineReturn pid cem final := by
  intro d
  induction d with
  | zero => intro i cur _; rfl
  | succ d ih =>
    intro i cur h
    obtain ⟨q, hq, hs, hf⟩ := h 0 (by omega)
    rw [show i + 0 = i from rfl] at hq
    simp only [waitLoop, hq, hs, hf, Bool.false_eq_true, if_false]
    apply ih
    intro j hj
    obtain ⟨q', hq', hs', hf'⟩ := h (j + 1) (by omega)
    refine ⟨q', ?_, hs', hf'⟩
    rw [show i + 1 + j = i + (j + 1) from by omega]
    exact hq'

/-- A string occurs in itself followed by anything. -/
theorem strContains_self_append (s t : String) : strContains (s ++ t) s = true := by
  unfold strContains
  rw [show (s ++ t).toList = s.toList ++ t.toList from String.data_append s t]
  exact listContainsSub_of_isPrefixOf
    (List.isPrefixOf_iff_prefix.mpr (List.prefix_append _ _))

/-- Every error string doRequest builds for an HTTP error response
contains the decimal status code. -/
theorem doRequestError_contains_status (status : ℕ)
    (envelope : Option ErrorEnvelope) (body : String) :
    strContains (doRequestError status envelope body) (toString status) = true := by
  unfold doRequestError
  cases envelope with
  | none =>
    rw [String.append_assoc]
    exact strContains_self_append _ _
  | some er =>
    by_cases hc : er.code = ""
    · simp only [hc, ne_eq, not_true_eq_false, if_false]
      rw [String.append_assoc]
      exact strContains_self_append _ _
    · simp only [ne_eq, hc, not_false_eq_true, if_true]
      rw [String.append_assoc, String.append_assoc, String.append_assoc]
      exact strContains_self_append _ _

/-- The final request of any successful redirect chain carries the
Authorization value of the first request of the chain. -/
theorem followRedirects_auth (server : HttpRequest → ServerResp) :
    ∀ (via : List HttpRequest) (req orig fr : HttpRequest) (body : String),
      (via ++ [req]).head? = some orig →
      req.authorization = orig.authorization →
      followRedirects server req via = Except.ok (fr, body) →
      fr.authorization = orig.authorization := by
  intro via req
  induction req, via using followRedirects.induct server with
  | case1 req via b hsrv =>
    intro orig fr body h1 h2 h3
    rw [followRedirects, hsrv] at h3
    simp only [Except.ok.injEq, Prod.mk.injEq] at h3
    obtain ⟨hfr, _⟩ := h3
    rw [← hfr]
    exact h2
  | case2 req via loc hsrv cand e hchk =>
    intro orig fr body h1 h2 h3
    rw [followRedirects, hsrv] at h3
    simp only [] at h3
    split at h3
    · simp at h3
    · rename_i nr hchk2
      rw [hchk] at hchk2
      simp at hchk2
  | case3 req via loc hsrv cand nextReq hchk ih =>
    intro orig fr body h1 h2 h3
    rw [followRedirects, hsrv] at h3
    simp only [] at h3
    split at h3
    · simp at h3
    · rename_i nr hchk2
      rw [hchk] at hchk2
      injection hchk2 with hnr
      subst hnr
      have hauth : nextReq.authorization = orig.authorization := by
        cases hv : via ++ [req] with
        | nil => simp at hv
        | cons first rest =>
          have hfirst : first = orig := by
            rw [hv] at h1
            simpa using h1
          rw [hv] at hchk
          simp only [checkRedirect] at hchk
          by_cases hlen : (first :: rest).length ≥ 10
          · rw [if_pos hlen] at hchk; simp at hchk
          · rw [if_neg hlen] at hchk
            simp only [Except.ok.injEq] at hchk
            rw [← hchk, hfirst]
      have hhead : ((via ++ [req]) ++ [nextReq]).head? = some orig := by
        cases hv : via ++ [req] with
        | nil => simp at hv
        | cons first rest =>
          rw [hv] at h1
          simpa using h1
      exact ih orig fr body hhead hauth h3

/-! The claims. -/

/-- C1 (amended): for every retry policy with maxAttempts = N ≥ 1 and a
dependency whose every call fails with a retryable error, one logical
call through doRequestWithRetry makes exactly N+1 physical attempts,
and never more than N+1 for any dependency behaviour; for
maxAttempts = 0 the executor substitutes the default policy
(maxAttempts 3), so a permanently-retryable failure causes 4 attempts,
not 1. -/
theorem C1_attempt_ceiling :
    (∀ (config : RetryConfig) (dep : ℕ → Except String String) (e : ℕ → String)
        (ctxErr : String),
      1 ≤ config.MaxRetries →
      (∀ i, dep i = Except.error (e i)) →
      (∀ i, isRetryableError (e i) = true) →
      (doRequestWithRetry dep none ctxErr config).2 = config.MaxRetries + 1) ∧
    (∀ (config : RetryConfig) (dep : ℕ → Except String String)
        (cancelAt : Option ℕ) (ctxErr : String),
      config.MaxRetries ≠ 0 →
      (doRequestWithRetry dep cancelAt ctxErr config).2 ≤ config.MaxRetries + 1) ∧
    (∀ (config : RetryConfig) (dep : ℕ → Except String String) (e : ℕ → String)
        (ctxErr : String),
      config.MaxRetries = 0 →
      (∀ i, dep i = Except.error (e i)) →
      (∀ i, isRetryableError (e i) = true) →
      (doRequestWithRetry dep none ctxErr config).2 = 4) := by
  refine ⟨?_, ?_, ?_⟩
  · intro config dep e ctxErr hN hdep hre
    simp only [doRequestWithRetry]
    rw [if_neg (by simp only [beq_iff_eq]; omega)]
    rw [retryLoop_allfail dep e ctxErr hdep hre config.MaxRetries 0]
  · intro config dep cancelAt ctxErr h0
    simp only [doRequestWithRetry]
    rw [if_neg (by simp only [beq_iff_eq]; exact h0)]
    exact retryLoop_count_le dep cancelAt ctxErr config.MaxRetries 0
  · intro config dep e ctxErr h0 hdep hre
    simp only [doRequestWithRetry]
    rw [if_pos (by simp only [beq_iff_eq]; exact h0)]
    rw [retryLoop_allfail dep e ctxErr hdep hre DefaultRetryConfig.MaxRetries 0]
    rfl

/-- C1 counterexample: a policy with maxAttempts = 0 and a permanently
503-failing dependency makes 4 physical attempts, not 0+1 = 1. -/
theorem C1_counterexample :
    (doRequestWithRetry (fun _ => Except.error "503: service unavailable") none
      "context canceled"
      { MaxRetries := 0, BaseDelay := 100000000, MaxDelay := 5000000000,
        Multiplier := 2, JitterFactor := 0.1 }).2 = 4 ∧
    ¬ (doRequestWithRetry (fun _ => Except.error "503: service unavailable") none
      "context canceled"
      { MaxRetries := 0, BaseDelay := 100000000, MaxDelay := 5000000000,
        Multiplier := 2, JitterFactor := 0.1 }).2 = 0 + 1 := by
  constructor <;> decide

/-- C1 witness: maxAttempts = 2 with a permanently failing retryable
dependency makes exactly 3 attempts. -/
theorem C1_witness :
    (doRequestWithRetry (fun _ => Except.error "503: x") none "context canceled"
      { MaxRetries := 2, BaseDelay := 1, MaxDelay := 1, Multiplier := 2,
        JitterFactor := 0 }).2 =
    ({ MaxRetries := 2, BaseDelay := 1, MaxDelay := 1, Multiplier := 2,
       JitterFactor := 0 } : RetryConfig).MaxRetries + 1 :=
  C1_attempt_ceiling.1 _ _ (fun _ => "503: x") _ (by decide) (fun _ => rfl)
    (fun _ => (by decide : isRetryableError "503: x" = true))

/-- C4 (amended): the retryability classifier is total; it returns true
for every error built from an HTTP 429, 502, 503 or 504 response and
for every error whose text contains one of the network-failure
substrings; it returns false for an error from any other HTTP 4xx/5xx
status provided the error text does not itself contain one of the
retryable substrings (a plain 404 causes exactly one call); and it
returns false for cancellation/deadline error texts. -/
theorem C4_classifier :
    (∀ status, status ∈ ([429, 502, 503, 504] : List ℕ) →
      ∀ (envelope : Option ErrorEnvelope) (body : String),
        isRetryableError (doRequestError status envelope body) = true) ∧
    (∀ (s p : String), p ∈ networkErrors → strContains s p = true →
      isRetryableError s = true) ∧
    (∀ s : String, (∀ p, p ∈ networkErrors → strContains s p = false) →
      (∀ p, p ∈ retryableStatuses → strContains s p = false) →
      isRetryableError s = false) ∧
    (isRetryableError (doRequestError 404 none "Not Found") = false ∧
      (doRequestWithRetry
        (fun _ => Except.error (doRequestError 404 none "Not Found"))
        none "context canceled" DefaultRetryConfig).2 = 1) ∧
    (isRetryableError "context canceled" = false ∧
      isRetryableError "context deadline exceeded" = false) := by
  refine ⟨?_, fun s p hp h => isRetryableError_of_network hp h,
    fun s hn hs => isRetryableError_eq_false hn hs,
    ⟨by decide, by decide⟩, ⟨by decide, by decide⟩⟩
  intro status hstatus envelope body
  fin_cases hstatus <;>
    exact isRetryableError_of_status (by decide)
      (doRequestError_contains_status _ _ _)

/-- C4 counterexample: an error built from an HTTP 404 response whose
body text mentions 503 is classified retryable, and a dependency that
always answers with it is retried (4 calls under the default policy),
contradicting that the classifier returns false for every non-allowlisted
4xx/5xx error. -/
theorem C4_counterexample :
    isRetryableError (doRequestError 404 none "upstream returned 503") = true ∧
    (doRequestWithRetry
      (fun _ => Except.error (doRequestError 404 none "upstream returned 503"))
      none "context canceled" DefaultRetryConfig).2 = 4 := by
  constructor <;> decide

/-- C4 witness: a 502 error with an empty envelope is retryable. -/
theorem C4_witness :
    isRetryableError (doRequestError 502 none "bad gateway body") = true :=
  C4_classifier.1 502 (by decide) none "bad gateway body"

/-- C9: any error whose text contains one of the substrings 429, 502,
503 or 504 anywhere is classified retryable regardless of its actual
HTTP status; in particular a 404 response whose raw body mentions 503
produces a retryable error, and a dependency always answering with it
is retried to exhaustion (4 calls under the default policy). -/
theorem C9_substring_retryability :
    (∀ (s p : String), p ∈ retryableStatuses → strContains s p = true →
      isRetryableError s = true) ∧
    isRetryableError
      (doRequestError 404 none "maintenance window, try 503 later") = true ∧
    (doRequestWithRetry
      (fun _ => Except.error (doRequestError 404 none "maintenance window, try 503 later"))
      none "context canceled" DefaultRetryConfig).2 = 4 := by
  refine ⟨fun s p hp h => isRetryableError_of_status hp h, by decide, by decide⟩

/-- C9 witness: a string containing 503 classifies as retryable. -/
theorem C9_witness : isRetryableError "boom 503 boom" = true :=
  C9_substring_retryability.1 "boom 503 boom" "503" (by decide) (by decide)

/-- C10: a client retry configuration with MaxRetries = 0 is silently
replaced, for the whole call, by DefaultRetryConfig, whose values are
MaxRetries 3, BaseDelay 100ms, MaxDelay 5s, Multiplier 2.0,
JitterFactor 0.1; hence zero retries cannot be configured: a
permanently-retryable failure under MaxRetries = 0 causes 4 attempts,
not 1. -/
theorem C10_zero_retries_default :
    (∀ (config : RetryConfig) (dep : ℕ → Except String String)
        (cancelAt : Option ℕ) (ctxErr : String),
      config.MaxRetries = 0 →
      doRequestWithRetry dep cancelAt ctxErr config =
        doRequestWithRetry dep cancelAt ctxErr DefaultRetryConfig) ∧
    DefaultRetryConfig =
      { MaxRetries := 3, BaseDelay := 100000000, MaxDelay := 5000000000,
        Multiplier := 2, JitterFactor := 1/10 } ∧
    (∀ (config : RetryConfig) (dep : ℕ → Except String String) (e : ℕ → String)
        (ctxErr : String),
      config.MaxRetries = 0 →
      (∀ i, dep i = Except.error (e i)) →
      (∀ i, isRetryableError (e i) = true) →
      (doRequestWithRetry dep none ctxErr config).2 = 4) := by
  refine ⟨?_, ?_, ?_⟩
  · intro config dep cancelAt ctxErr h0
    simp only [doRequestWithRetry]
    rw [if_pos (by simp only [beq_iff_eq]; exact h0), if_neg (by decide)]
  · unfold DefaultRetryConfig
    simp only [RetryConfig.mk.injEq]
    norm_num
  · intro config dep e ctxErr h0 hdep hre
    simp only [doRequestWithRetry]
    rw [if_pos (by simp only [beq_iff_eq]; exact h0)]
    rw [retryLoop_allfail dep e ctxErr hdep hre DefaultRetryConfig.MaxRetries 0]
    rfl

/-- C10 witness: under MaxRetries = 0 a permanently 503-failing
dependency is driven by the default policy and makes 4 attempts. -/
theorem C10_witness :
    (doRequestWithRetry (fun _ => Except.error "503: y") none "context canceled"
      { MaxRetries := 0, BaseDelay := 7, MaxDelay := 9, Multiplier := 3,
        JitterFactor := 0 }).2 = 4 :=
  C10_zero_retries_default.2.2 _ _ (fun _ => "503: y") _ rfl (fun _ => rfl)
    (fun _ => (by decide : isRetryableError "503: y" = true))

/-- C7: if the caller's cancellation fires during the backoff wait that
follows attempt k (reachable: every attempt up to k failed retryably
and k is below the retry budget), the executor makes no further network
call — exactly k+1 calls happen — and returns the context's error
immediately. -/
theorem C7_cancellation_precedence (config : RetryConfig)
    (dep : ℕ → Except String String) (e : ℕ → String) (ctxErr : String) (k : ℕ)
    (h0 : config.MaxRetries ≠ 0) (hk : k < config.MaxRetries)
    (hfail : ∀ i, i ≤ k →
      dep i = Except.error (e i) ∧ isRetryableError (e i) = true) :
    doRequestWithRetry dep (some k) ctxErr config = (Except.error ctxErr, k + 1) := by
  simp only [doRequestWithRetry]
  rw [if_neg (by simp only [beq_iff_eq]; exact h0)]
  have h := retryLoop_cancel dep e ctxErr k hfail config.MaxRetries 0
    (by omega) (by omega)
  simpa using h

/-- C7 witness: cancellation during the wait after attempt 1 yields the
context error after exactly 2 calls. -/
theorem C7_witness :
    doRequestWithRetry (fun _ => Except.error "503: x") (some 1) "context canceled"
      { MaxRetries := 5, BaseDelay := 1, MaxDelay := 1, Multiplier := 2,
        JitterFactor := 0 } = (Except.error "context canceled", 1 + 1) :=
  C7_cancellation_precedence _ _ (fun _ => "503: x") _ 1 (by decide) (by decide)
    (fun _ _ => ⟨rfl, (by decide : isRetryableError "503: x" = true)⟩)

/-- C8: whenever doRequestWithRetry fails (without its context firing
during a wait), the error returned is exactly the error produced by the
last attempt made, verbatim — no wrapper. -/
theorem C8_last_error_verbatim (dep : ℕ → Except String String)
    (config : RetryConfig) (ctxErr err : String) (n : ℕ)
    (h : doRequestWithRetry dep none ctxErr config = (Except.error err, n)) :
    1 ≤ n ∧ dep (n - 1) = Except.error err := by
  simp only [doRequestWithRetry] at h
  by_cases h0 : config.MaxRetries = 0
  · rw [if_pos (by simp only [beq_iff_eq]; exact h0)] at h
    have hres := retryLoop_last_error dep ctxErr DefaultRetryConfig.MaxRetries 0 err n h
    simpa using hres
  · rw [if_neg (by simp only [beq_iff_eq]; exact h0)] at h
    have hres := retryLoop_last_error dep ctxErr config.MaxRetries 0 err n h
    simpa using hres

/-- C8 witness: a single non-retryable 404 failure surfaces that exact
error after 1 call. -/
theorem C8_witness :
    1 ≤ 1 ∧
    (fun _ : ℕ => (Except.error "404: missing" : Except String String)) (1 - 1) =
      Except.error "404: missing" :=
  C8_last_error_verbatim (fun _ => Except.error "404: missing")
    DefaultRetryConfig "context canceled" "404: missing" 1 rfl

/-- C2 (amended): whenever the deadline of WaitForProcess expires, one
final status fetch is made with a fresh, non-deadline-bound context;
if that fetch returns a process, the poller returns that process
together with a timeout error naming its last status — even a
Success-like final status is reported as a timeout error (the attached
process and status-carrying message distinguish it from a bare
timeout), not as a success. -/
theorem C2_deadline_final_check (processID ctxErrMsg : String)
    (firstFetch : Except String Process) (getProc : ℕ → Except String Process)
    (finalFetch : Option Process) (d : ℕ) (p : Process)
    (hfirst : ∀ q, firstFetch = Except.ok q →
      isSuccessStatus q.Status = false ∧ isFailureStatus q.Status = false)
    (hloop : ∀ j, j < d → ∃ q, getProc j = Except.ok q ∧
      isSuccessStatus q.Status = false ∧ isFailureStatus q.Status = false) :
    WaitForProcess processID ctxErrMsg firstFetch getProc finalFetch d =
      deadlineReturn processID ctxErrMsg finalFetch ∧
    deadlineReturn processID ctxErrMsg (some p) =
      (some p, some ("timeout waiting for process " ++ processID ++
        " (last status: " ++ p.Status ++ ")")) := by
  constructor
  · have hdl := waitLoop_deadline processID ctxErrMsg getProc finalFetch
      5000000000 1.5 d 0 500000000
      (by intro j hj; simpa using hloop j hj)
    simp only [WaitForProcess]
    cases firstFetch with
    | error e => exact hdl
    | ok q =>
      obtain ⟨hs, hf⟩ := hfirst q rfl
      simp only [hs, hf, Bool.false_eq_true, if_false]
      exact hdl
  · rfl

/-- C2 counterexample: the deadline fires, the final fresh-context
fetch reports SUCCESS, yet WaitForProcess returns a timeout error (the
second component is an error, not none), so the operation is not
reported to the caller as succeeded. -/
theorem C2_counterexample :
    WaitForProcess "proc1" "context deadline exceeded"
      (Except.ok { ID := "proc1", Status := "PENDING" })
      (fun _ => Except.ok { ID := "proc1", Status := "PENDING" })
      (some { ID := "proc1", Status := "SUCCESS" }) 0 =
      (some { ID := "proc1", Status := "SUCCESS" },
        some "timeout waiting for process proc1 (last status: SUCCESS)") ∧
    (WaitForProcess "proc1" "context deadline exceeded"
      (Except.ok { ID := "proc1", Status := "PENDING" })
      (fun _ => Except.ok { ID := "proc1", Status := "PENDING" })
      (some { ID := "proc1", Status := "SUCCESS" }) 0).2 ≠ none := by
  constructor <;> decide

/-- C2 witness: two pending polls then an expired deadline end in the
deadline branch carrying the final SUCCESS process and timeout text. -/
theorem C2_witness :
    WaitForProcess "p2" "context deadline exceeded"
      (Except.error "connection refused")
      (fun _ => Except.ok { ID := "p2", Status := "RUNNING" })
      (some { ID := "p2", Status := "SUCCESS" }) 2 =
      deadlineReturn "p2" "context deadline exceeded"
        (some { ID := "p2", Status := "SUCCESS" }) ∧
    deadlineReturn "p2" "context deadline exceeded"
      (some { ID := "p2", Status := "SUCCESS" }) =
      (some { ID := "p2", Status := "SUCCESS" },
        some ("timeout waiting for process " ++ "p2" ++
          " (last status: " ++ "SUCCESS" ++ ")")) :=
  C2_deadline_final_check "p2" "context deadline exceeded"
    (Except.error "connection refused")
    (fun _ => Except.ok { ID := "p2", Status := "RUNNING" })
    (some { ID := "p2", Status := "SUCCESS" }) 2
    { ID := "p2", Status := "SUCCESS" }
    (fun q h => nomatch h)
    (fun j hj => ⟨{ ID := "p2", Status := "RUNNING" }, rfl, by decide, by decide⟩)

/-- C3 (amended): inside the poll loop of WaitForProcess (before the
deadline fires), a status fetch that fails aborts the wait immediately
with a wrapped failed-to-get-process-status error — it does not advance
to the next attempt; only the immediate first check treats a fetch
error as pending-like by falling into the wait loop. -/
theorem C3_loop_fetch_error :
    (∀ (processID ctxErrMsg : String) (getProc : ℕ → Except String Process)
        (finalFetch : Option Process) (maxI mult cur : ℚ) (d i : ℕ) (e : String),
      getProc i = Except.error e →
      waitLoop processID ctxErrMsg getProc finalFetch maxI mult (d + 1) cur i =
        (none, some ("failed to get process status: " ++ e))) ∧
    (∀ (processID ctxErrMsg e : String) (getProc : ℕ → Except String Process)
        (finalFetch : Option Process) (d : ℕ),
      WaitForProcess processID ctxErrMsg (Except.error e) getProc finalFetch d =
        waitLoop processID ctxErrMsg getProc finalFetch 5000000000 1.5 d
          500000000 0) := by
  constructor
  · intro pid cem getProc ff maxI mult cur d i e h
    simp [waitLoop, h]
  · intro pid cem e getProc ff d
    rfl

/-- C3 counterexample: before the deadline would fire, a transient
"connection refused" status fetch makes WaitForProcess abort with a
fetch error instead of polling on (the final fetch would have seen
SUCCESS). -/
theorem C3_counterexample :
    WaitForProcess "proc3" "context deadline exceeded"
      (Except.ok { ID := "proc3", Status := "PENDING" })
      (fun _ => Except.error "connection refused")
      (some { ID := "proc3", Status := "SUCCESS" }) 3 =
      (none, some "failed to get process status: connection refused") := by
  decide

/-- C3 witness: a fetch error at the first loop iteration surfaces the
wrapped error. -/
theorem C3_witness :
    waitLoop "w1" "context deadline exceeded"
      (fun _ => Except.error "connection refused") none 5000000000 1.5
      (2 + 1) 500000000 0 =
      (none, some ("failed to get process status: " ++ "connection refused")) :=
  C3_loop_fetch_error.1 "w1" "context deadline exceeded"
    (fun _ => Except.error "connection refused") none 5000000000 1.5
    500000000 2 0 "connection refused" rfl

/-- C5: the redirect hook copies the Authorization header of the first
request of the chain (not the preceding hop) onto every redirected
request, so the final request of any successful chain carries the
original credential header; a chain of 3 redirects succeeds with the
original header, while the hook caps chains so that 11 redirects fail
with a "stopped after 10 redirects" error that is not retryable. -/
theorem C5_redirect_authority :
    (∀ (req nextReq first : HttpRequest) (rest : List HttpRequest),
      checkRedirect req (first :: rest) = Except.ok nextReq →
      nextReq.authorization = first.authorization) ∧
    (∀ (server : HttpRequest → ServerResp) (req fr : HttpRequest) (body : String),
      followRedirects server req [] = Except.ok (fr, body) →
      fr.authorization = req.authorization) ∧
    httpDo chainServer3 { url := "a", authorization := "Bearer tok" } =
      Except.ok ({ url := "d", authorization := "Bearer tok" }, "payload") ∧
    httpDo chainServer11 { url := "a", authorization := "Bearer tok" } =
      Except.error "stopped after 10 redirects" ∧
    isRetryableError
      "request failed: Get \"k\": stopped after 10 redirects" = false := by
  refine ⟨?_, ?_, ?_, ?_, by decide⟩
  · intro req nextReq first rest hchk
    simp only [checkRedirect] at hchk
    by_cases hlen : (first :: rest).length ≥ 10
    · rw [if_pos hlen] at hchk; simp at hchk
    · rw [if_neg hlen] at hchk
      simp only [Except.ok.injEq] at hchk
      rw [← hchk]
  · intro server req fr body h
    exact followRedirects_auth server [] req req fr body (by simp) rfl h
  · simp [httpDo, followRedirects, chainServer3, checkRedirect]
  · simp [httpDo, followRedirects, chainServer11, checkRedirect]

/-- C5 witness: the hook rewrites the candidate request's header to the
chain-initial credential. -/
theorem C5_witness :
    ({ url := "b", authorization := "Bearer tok" } : HttpRequest).authorization =
      ({ url := "a", authorization := "Bearer tok" } : HttpRequest).authorization :=
  C5_redirect_authority.1 { url := "b", authorization := "" }
    { url := "b", authorization := "Bearer tok" }
    { url := "a", authorization := "Bearer tok" } [] rfl

/-- C6: for every attempt index, every valid retry policy and every
jitter draw u in [-1, 1], the computed backoff deviates from the
clamped raw value min(baseDelay * multiplier^attempt, maxDelay) by at
most raw * jitterFactor, and is never negative. -/
theorem C6_backoff_bounds (attempt : ℕ) (config : RetryConfig) (u : ℚ)
    (hbase : 0 < config.BaseDelay) (hmax : config.BaseDelay ≤ config.MaxDelay)
    (hmult : 1 < config.Multiplier) (hjf0 : 0 ≤ config.JitterFactor)
    (hjf1 : config.JitterFactor ≤ 1) (hu : |u| ≤ 1) :
    |calculateBackoff attempt config u -
        min (config.BaseDelay * config.Multiplier ^ attempt) config.MaxDelay| ≤
      min (config.BaseDelay * config.Multiplier ^ attempt) config.MaxDelay *
        config.JitterFactor ∧
    0 ≤ calculateBackoff attempt config u := by
  have hbpos : 0 < config.BaseDelay * config.Multiplier ^ attempt :=
    mul_pos hbase (pow_pos (lt_trans zero_lt_one hmult) attempt)
  set r := min (config.BaseDelay * config.Multiplier ^ attempt) config.MaxDelay
    with hr
  have hrpos : 0 < r := lt_min hbpos (lt_of_lt_of_le hbase hmax)
  have heq : calculateBackoff attempt config u =
      r + r * config.JitterFactor * u := by
    unfold calculateBackoff
    rcases le_or_lt (config.BaseDelay * config.Multiplier ^ attempt)
      config.MaxDelay with hle | hlt
    · rw [hr, min_eq_left hle]
      simp only [if_neg (not_lt.mpr hle)]
    · rw [hr, min_eq_right hlt.le]
      simp only [if_pos hlt]
  rcases abs_le.mp hu with ⟨hu1, hu2⟩
  constructor
  · rw [heq]
    have hdiff : r + r * config.JitterFactor * u - r =
        r * config.JitterFactor * u := by ring
    rw [hdiff, abs_mul, abs_mul, abs_of_pos hrpos, abs_of_nonneg hjf0]
    calc r * config.JitterFactor * |u| ≤ r * config.JitterFactor * 1 :=
          mul_le_mul_of_nonneg_left hu (mul_nonneg hrpos.le hjf0)
      _ = r * config.JitterFactor := mul_one _
  · rw [heq]
    have t1 : 0 ≤ r * config.JitterFactor * (u + 1) :=
      mul_nonneg (mul_nonneg hrpos.le hjf0) (by linarith)
    have t2 : 0 ≤ (1 - config.JitterFactor) * r :=
      mul_nonneg (by linarith) hrpos.le
    nlinarith [t1, t2]

/-- C6 witness: at attempt 1 under baseDelay 100, maxDelay 5000,
multiplier 2, jitterFactor 1/10 and jitter draw 1/2, the bounds hold. -/
theorem C6_witness :
    |calculateBackoff 1
        { MaxRetries := 3, BaseDelay := 100, MaxDelay := 5000, Multiplier := 2,
          JitterFactor := 1/10 } (1/2) -
      min ((100 : ℚ) * 2 ^ 1) 5000| ≤ min ((100 : ℚ) * 2 ^ 1) 5000 * (1/10) ∧
    0 ≤ calculateBackoff 1
      { MaxRetries := 3, BaseDelay := 100, MaxDelay := 5000, Multiplier := 2,
        JitterFactor := 1/10 } (1/2) :=
  C6_backoff_bounds 1
    { MaxRetries := 3, BaseDelay := 100, MaxDelay := 5000, Multiplier := 2,
      JitterFactor := 1/10 } (1/2)
    (by norm_num) (by norm_num) (by norm_num) (by norm_num) (by norm_num)
    (by rw [abs_le]; constructor <;> norm_num)

end ZeropsApi
